import Mathlib

/-!
Verification development for the WoodDetection repository.

The repository has two scripts:
  * `MaskFromJsonAnnotation.py` — builds per-frame binary mask images from
    annotation shape records (polygon / polyline / ellipse), and
  * `compareCvatVsSamMasks.py` — compares a reference mask with a candidate
    mask (IoU and pixel accuracy) and aggregates the metrics over a batch.

The embedding below follows the Python source.  External library collaborators
(cv2.imread, cv2.resize, and the cv2 rasterizers fillPoly / polylines /
ellipse) are taken as explicit function parameters: the rasterizers are
modelled as a function giving the set of touched pixels, while the written
colour and the canvas update are part of the modelled code, exactly as in the
source calls.
-/

/-- A single-channel image: `rows × cols` grid of 8-bit intensities stored
row-major in `data` (row `i`, column `j` is entry `i * cols + j`). -/

structure Img where
  rows : Nat
  cols : Nat
  data : List Nat
deriving DecidableEq

/-- Result record of the pairwise metric, the dictionary
`{"IoU": iou, "Accuracy": accuracy}` of `compute_mask_accuracy`. -/

structure MetricResult where
  IoU : Rat
  Accuracy : Rat
deriving DecidableEq

/-- Model of `cv2.threshold(m, 127, 255, cv2.THRESH_BINARY)` applied pixel-wise:
values strictly above 127 become 255, all others become 0. -/

def cv2_threshold127 (img : Img) : Img :=
  { img with data := img.data.map (fun v => if 127 < v then 255 else 0) }

/-- Model of `np.logical_and(a, b).sum()`: the number of pixel positions where
both intensities are nonzero (numpy truthiness). -/

def np_logical_and_sum (a b : Img) : Nat :=
  (List.zipWith (fun x y => !(x == 0) && !(y == 0)) a.data b.data).count true

/-- Model of `np.logical_or(a, b).sum()`: the number of pixel positions where
at least one intensity is nonzero. -/

def np_logical_or_sum (a b : Img) : Nat :=
  (List.zipWith (fun x y => !(x == 0) || !(y == 0)) a.data b.data).count true

/-- Model of `np.sum(a == b)`: the number of pixel positions with equal
intensities. -/

def np_eq_sum (a b : Img) : Nat :=
  (List.zipWith (fun x y => x == y) a.data b.data).count true

/-- Core of `compute_mask_accuracy` once both masks loaded: resize the test
mask to the reference shape when the shapes differ, binarize both at
threshold 127, and compute IoU (with the `union > 0` guard) and pixel
accuracy.  `resize img w h` models `cv2.resize(img, (w, h))`. -/

def mask_metrics (resize : Img → Nat → Nat → Img) (cvat_mask0 test_mask0 : Img) :
    MetricResult :=
  let test_mask1 :=
    if cvat_mask0.rows == test_mask0.rows && cvat_mask0.cols == test_mask0.cols
    then test_mask0 else resize test_mask0 cvat_mask0.cols cvat_mask0.rows
  let cvat_mask := cv2_threshold127 cvat_mask0
  let test_mask := cv2_threshold127 test_mask1
  let intersection := np_logical_and_sum cvat_mask test_mask
  let union := np_logical_or_sum cvat_mask test_mask
  let iou : Rat := if union > 0 then (intersection : Rat) / (union : Rat) else 0
  let total_pixels := cvat_mask.rows * cvat_mask.cols
  let correct_pixels := np_eq_sum cvat_mask test_mask
  let accuracy : Rat := (correct_pixels : Rat) / (total_pixels : Rat)
  { IoU := iou, Accuracy := accuracy }

/-- Model of `compute_mask_accuracy(cvat_mask_path, test_mask_path)`.
`imread` models `cv2.imread(path, cv2.IMREAD_GRAYSCALE)` (`none` = load
failure).  Returns the metric record together with the list of diagnostic
lines printed by the function. -/

def compute_mask_accuracy (imread : String → Option Img)
    (resize : Img → Nat → Nat → Img)
    (cvat_mask_path test_mask_path : String) : MetricResult × List String :=
  match imread cvat_mask_path, imread test_mask_path with
  | some cvat_mask, some test_mask =>
      (mask_metrics resize cvat_mask test_mask, [])
  | _, _ =>
      ({ IoU := 0, Accuracy := 0 },
       ["Error: Could not load one of the masks - " ++ cvat_mask_path ++
        " or " ++ test_mask_path])

/-! ### Spec-side definitions for the pairwise metric

The following definitions are written from the specification text alone
("Binarize both grids with a fixed threshold (127): values >127 → 255, else
→ 0", "IoU = |intersection| / |union| over the binarized boolean grids",
"Accuracy = (count of pixels where binarized reference equals binarized
candidate) / (total pixel count)").  They are compared with the source-side
`mask_metrics` in the refinement theorem for claim C1. -/

/-- Spec-side binarization of one pixel: values above 127 become 255,
others 0. -/

def spec_binarize (v : Nat) : Nat := if v > 127 then 255 else 0

/-- Spec-side boolean (foreground) view of a binarized pixel. -/

def spec_foreground (v : Nat) : Bool := decide (v > 127)

/-- Spec-side intersection size: pixel-wise logical AND over the binarized
boolean grids. -/

def spec_intersection (a b : Img) : Nat :=
  (List.zipWith (fun x y => spec_foreground x && spec_foreground y)
    a.data b.data).count true

/-- Spec-side union size: pixel-wise logical OR over the binarized boolean
grids. -/

def spec_union (a b : Img) : Nat :=
  (List.zipWith (fun x y => spec_foreground x || spec_foreground y)
    a.data b.data).count true

/-- Spec-side IoU: intersection size divided by union size. -/

def spec_IoU (a b : Img) : Rat :=
  (spec_intersection a b : Rat) / (spec_union a b : Rat)

/-- Spec-side count of pixels where the binarized reference equals the
binarized candidate. -/

def spec_correct (a b : Img) : Nat :=
  (List.zipWith (fun x y => spec_binarize x == spec_binarize y)
    a.data b.data).count true

/-- Spec-side accuracy: matching-pixel count divided by the total pixel
count of the reference. -/

def spec_accuracy (a b : Img) : Rat :=
  (spec_correct a b : Rat) / ((a.rows * a.cols : Nat) : Rat)

/-! ### Batch evaluation (`evaluate_multiple_masks`)

Python string operations are modelled on the character lists of Lean
strings: `splitOnCharAux` models `str.split(sep)` for a one-character
separator, `parseNatChars` models `int(s)` for the digit strings the claims
are about (on non-digit input `int` raises, which no claim covers; the model
totalizes with `Option`). -/

/-- Model of Python `s.split(sep)` for a single-character separator, on the
character list of the string. -/

def splitOnCharAux (sep : Char) : List Char → List (List Char)
  | [] => [[]]
  | c :: rest =>
      let r := splitOnCharAux sep rest
      if c = sep then [] :: r
      else
        match r with
        | [] => [[c]]
        | g :: gs => (c :: g) :: gs

/-- Model of Python `int(s)` on a digit string: `none` when `s` is empty or
holds a non-digit character (where `int` would raise). -/

def parseNatChars (l : List Char) : Option Nat :=
  if l = [] ∨ l.any (fun c => !c.isDigit) then none
  else some (l.foldl (fun acc c => acc * 10 + (c.toNat - 48)) 0)

/-- Model of `filename.split("_")[2].split(".")[0]` from
`evaluate_multiple_masks` (the frame-number substring of a reference mask
filename).  Out-of-range indexing, where Python would raise, is totalized
with the empty string. -/

def frame_number_of (filename : String) : String :=
  String.mk (((splitOnCharAux '.'
    ((splitOnCharAux '_' filename.data).getD 2 []))).getD 0 [])

/-- Model of the candidate filename derivation
`f"mejorada_recortada_0301-{int(frame_number) + 1}_mascara.png"`. -/

def test_mask_filename (filename : String) : String :=
  "mejorada_recortada_0301-" ++
    toString ((parseNatChars (frame_number_of filename).data).getD 0 + 1) ++
    "_mascara.png"

/-- Model of `filename.startswith("mask_frame") and filename.endswith(".png")`. -/

def matches_mask_pattern (filename : String) : Bool :=
  ("mask_frame".data.isPrefixOf filename.data) &&
  (".png".data.isSuffixOf filename.data)

/-- Model of `os.path.join(dir, name)` for a directory path without a
trailing separator and a relative name, the only use in this code. -/

def os_path_join (dir name : String) : String := dir ++ "/" ++ name

/-- Insert a string into a sorted list (helper for `sortStrings`). -/

def insertSorted (x : String) : List String → List String
  | [] => [x]
  | y :: ys => if y < x then y :: insertSorted x ys else x :: y :: ys

/-- Model of Python `sorted(...)` on a list of filenames (ascending
insertion sort). -/

def sortStrings (l : List String) : List String :=
  l.foldr insertSorted []

/-- Accumulator of the loop in `evaluate_multiple_masks`: the `results`
dictionary (as an insertion-ordered association list), the running totals,
the pair count, and the warning lines printed for missing candidates. -/

structure EvalAcc where
  results : List (String × MetricResult)
  total_iou : Rat
  total_accuracy : Rat
  count : Nat
  warnings : List String

/-- One iteration of the loop in `evaluate_multiple_masks` over a reference
filename.  `pathEx` models `os.path.exists`. -/

def eval_step (imread : String → Option Img) (resize : Img → Nat → Nat → Img)
    (pathEx : String → Bool) (cvat_mask_dir test_mask_dir : String)
    (st : EvalAcc) (filename : String) : EvalAcc :=
  if matches_mask_pattern filename then
    let tname := test_mask_filename filename
    let cvat_mask_path := os_path_join cvat_mask_dir filename
    let test_mask_path := os_path_join test_mask_dir tname
    if pathEx test_mask_path then
      let metrics := (compute_mask_accuracy imread resize cvat_mask_path test_mask_path).1
      { results := st.results ++ [(filename, metrics)],
        total_iou := st.total_iou + metrics.IoU,
        total_accuracy := st.total_accuracy + metrics.Accuracy,
        count := st.count + 1,
        warnings := st.warnings }
    else
      { st with warnings := st.warnings ++
          ["Warning: Missing test mask for " ++ filename ++ " -> Expected: " ++ tname] }
  else st

/-- Model of `evaluate_multiple_masks(cvat_mask_dir, test_mask_dir)`.
`listing` models `os.listdir(cvat_mask_dir)`; the code iterates it sorted.
Returns the results list (ending with the reserved `"Overall"` entry, as the
final dictionary insertion) together with the warning lines printed. -/

def evaluate_multiple_masks (imread : String → Option Img)
    (resize : Img → Nat → Nat → Img) (pathEx : String → Bool)
    (cvat_mask_dir test_mask_dir : String) (listing : List String) :
    List (String × MetricResult) × List String :=
  let st := (sortStrings listing).foldl
    (eval_step imread resize pathEx cvat_mask_dir test_mask_dir)
    { results := [], total_iou := 0, total_accuracy := 0, count := 0, warnings := [] }
  (st.results ++
    [("Overall",
      { IoU := if st.count > 0 then st.total_iou / (st.count : Rat) else 0,
        Accuracy := if st.count > 0 then st.total_accuracy / (st.count : Rat) else 0 })],
   st.warnings)

/-- The reference filenames of a listing that are actually compared: they
match the fixed pattern and their derived candidate file exists. -/

def comparedFiles (pathEx : String → Bool) (test_mask_dir : String)
    (files : List String) : List String :=
  files.filter (fun f =>
    matches_mask_pattern f && pathEx (os_path_join test_mask_dir (test_mask_filename f)))

/-- The pairwise metric recorded for one compared reference filename. -/

def pairMetric (imread : String → Option Img) (resize : Img → Nat → Nat → Img)
    (cvat_mask_dir test_mask_dir : String) (f : String) : MetricResult :=
  (compute_mask_accuracy imread resize (os_path_join cvat_mask_dir f)
    (os_path_join test_mask_dir (test_mask_filename f))).1

/-! ### Mask Builder (`create_grouped_masks_from_annotations`)

A shape record carries the fields read from the JSON (`frame`, `points`,
`type`, with the `.get` defaults already applied by the JSON collaborator);
`points` holds the flat coordinate values after the `np.int32` conversion.
The cv2 rasterizers are modelled by `DrawOps`: each gives, from the
arguments of the corresponding cv2 call, the set of canvas pixels the call
touches; the written value (255 everywhere in this code) and the
write-through to the canvas are modelled by `applyRegion`. -/

/-- One annotation shape record. -/

structure Shape where
  frame : Nat
  points : List Int
  type : String
deriving DecidableEq

/-- Diagnostic lines printed by the builder for skipped shapes. -/

inductive Diag where
  | invalidPoints (points : List Int)
  | skipPolygon (points : List Int)
  | skipPolyline (points : List Int)
  | skipEllipse (points : List Int)
deriving DecidableEq

/-- Pixel regions of the cv2 rasterizers, as predicates on (row, column).
`fillPolyRegion pts` models the pixels filled by `cv2.fillPoly(_, [pts], ...)`;
`polylineRegion pts isClosed thickness` those stroked by `cv2.polylines`;
`ellipseRegion center axes angle startAngle endAngle thickness` those drawn
by `cv2.ellipse` (thickness `-1` = filled). -/

structure DrawOps where
  fillPolyRegion : List (Int × Int) → Nat → Nat → Bool
  polylineRegion : List (Int × Int) → Bool → Nat → Nat → Nat → Bool
  ellipseRegion : Int × Int → Int × Int → Int → Int → Int → Int → Nat → Nat → Bool

/-- Model of `np.zeros((image_size[1], image_size[0]), dtype=np.uint8)`:
an all-zero canvas with `h` rows and `w` columns. -/

def mkZeroCanvas (w h : Nat) : Img :=
  { rows := h, cols := w, data := List.replicate (h * w) 0 }

/-- Write `color` at every pixel of `l` (indexed from `start`, row-major over
`cols` columns) that lies in `region`; all other pixels keep their value. -/

def paintFrom (region : Nat → Nat → Bool) (color : Nat) (cols : Nat) :
    Nat → List Nat → List Nat
  | _, [] => []
  | start, v :: rest =>
      (if region (start / cols) (start % cols) then color else v) ::
        paintFrom region color cols (start + 1) rest

/-- A cv2 drawing call on a canvas: set every pixel of the region to `color`,
leave every other pixel unchanged. -/

def applyRegion (region : Nat → Nat → Bool) (color : Nat) (c : Img) : Img :=
  { c with data := paintFrom region color c.cols 0 c.data }

/-- Model of `np.array(points, dtype=np.int32).reshape((-1, 2))` for an
even-length list. -/

def toPairs : List Int → List (Int × Int)
  | x :: y :: rest => (x, y) :: toPairs rest
  | _ => []

/-- The per-shape body of the builder loop acting on the shape's frame
canvas: validation of the point list, dispatch on the shape type, and the
corresponding cv2 drawing call.  Returns the updated canvas and the
diagnostics printed for this shape. -/

def drawShapeOnCanvas (ops : DrawOps) (s : Shape) (c : Img) : Img × List Diag :=
  if s.points.length % 2 = 0 ∧ 0 < s.points.length then
    let points_array := toPairs s.points
    if s.type = "polygon" then
      if 3 ≤ points_array.length then
        (applyRegion (ops.fillPolyRegion points_array) 255 c, [])
      else (c, [Diag.skipPolygon s.points])
    else if s.type = "polyline" then
      if 2 ≤ points_array.length then
        (applyRegion (ops.polylineRegion points_array false 2) 255 c, [])
      else (c, [Diag.skipPolyline s.points])
    else if s.type = "ellipse" then
      if 4 ≤ s.points.length then
        (applyRegion
          (ops.ellipseRegion (s.points.getD 0 0, s.points.getD 1 0)
            (s.points.getD 2 0, s.points.getD 3 0)
            (if 4 < s.points.length then s.points.getD 4 0 else 0) 0 360 (-1))
          255 c, [])
      else (c, [Diag.skipEllipse s.points])
    else (c, [])
  else (c, [Diag.invalidPoints s.points])

/-- First-match lookup in the grouped-masks association list (Python dict
access `grouped_masks[frame]`). -/

def lookupFrame : List (Nat × Img) → Nat → Option Img
  | [], _ => none
  | p :: rest, f => if p.1 = f then some p.2 else lookupFrame rest f

/-- Replace the value stored for key `f` (Python dict item assignment on an
existing key). -/

def updateFrame : List (Nat × Img) → Nat → Img → List (Nat × Img)
  | [], _, _ => []
  | p :: rest, f, c => if p.1 = f then (f, c) :: rest else p :: updateFrame rest f c

/-- Model of `if frame not in grouped_masks: grouped_masks[frame] = np.zeros(...)`:
lazily create the all-zero canvas on first reference to the frame, at the
end of the dict (Python insertion order). -/

def ensureFrame (w h : Nat) (g : List (Nat × Img)) (f : Nat) : List (Nat × Img) :=
  if (lookupFrame g f).isSome then g else g ++ [(f, mkZeroCanvas w h)]

/-- State of the builder loop: the grouped canvases and the diagnostics
printed so far. -/

structure BuilderState where
  grouped : List (Nat × Img)
  diags : List Diag
deriving DecidableEq

/-- One iteration of the builder loop over a shape record: create the
frame's canvas if needed, then draw the shape on it. -/

def processShape (ops : DrawOps) (w h : Nat) (st : BuilderState) (s : Shape) :
    BuilderState :=
  let grouped := ensureFrame w h st.grouped s.frame
  let canvas := (lookupFrame grouped s.frame).getD (mkZeroCanvas w h)
  let r := drawShapeOnCanvas ops s canvas
  { grouped := updateFrame grouped s.frame r.1, diags := st.diags ++ r.2 }

/-- Model of `create_grouped_masks_from_annotations(json_file, output_dir,
image_size)` after the JSON load: `data` is the parsed top-level list, one
shape list per item; `image_size` is `(width, height)`.  Returns the final
grouped canvases and diagnostics. -/

def create_grouped_masks_from_annotations (ops : DrawOps) (data : List (List Shape))
    (image_size : Nat × Nat) : BuilderState :=
  data.flatten.foldl (processShape ops image_size.1 image_size.2)
    { grouped := [], diags := [] }

/-- Model of the final save loop: one file per frame, named
`f"mask_frame_{frame}_1500x1500.png"` (the resolution tag is the hardcoded
string literal of the source, not the configured size). -/

def output_mask_files (st : BuilderState) : List (String × Img) :=
  st.grouped.map (fun p => ("mask_frame_" ++ toString p.1 ++ "_1500x1500.png", p.2))

/-- Test input for the concrete scenario of the spec: a 10×10 all-zero grid
except a filled 3×3 square of value 255 whose top-left corner is at row
`r0`, column `c0`. -/

def squareMask (r0 c0 : Nat) : Img :=
  { rows := 10, cols := 10,
    data := (List.range 100).map (fun i =>
      if r0 ≤ i / 10 ∧ i / 10 < r0 + 3 ∧ c0 ≤ i % 10 ∧ i % 10 < c0 + 3
      then 255 else 0) }

/-- Test loader for the concrete scenario. -/

def squareImread : String → Option Img := fun p =>
  if p = "ref" then some (squareMask 0 0)
  else if p = "shift" then some (squareMask 1 1)
  else some (squareMask 0 0)

/-- Canvas pixel invariant: every pixel is 0 or 255. -/

def pix255 (c : Img) : Prop := ∀ v ∈ c.data, v = 0 ∨ v = 255

/-- Test rasterizer whose regions cover every pixel (each cv2 drawing call
touches the whole canvas). -/

def fullOps : DrawOps :=
  { fillPolyRegion := fun _ _ _ => true,
    polylineRegion := fun _ _ _ _ _ => true,
    ellipseRegion := fun _ _ _ _ _ _ _ _ => true }

theorem mask_metrics_eq_shape (resize : Img → Nat → Nat → Img) (a b : Img)
    (hr : a.rows = b.rows) (hc : a.cols = b.cols) :
    mask_metrics resize a b =
      { IoU :=
          if np_logical_or_sum (cv2_threshold127 a) (cv2_threshold127 b) > 0
          then (np_logical_and_sum (cv2_threshold127 a) (cv2_threshold127 b) : Rat) /
               (np_logical_or_sum (cv2_threshold127 a) (cv2_threshold127 b) : Rat)
          else 0,
        Accuracy :=
          (np_eq_sum (cv2_threshold127 a) (cv2_threshold127 b) : Rat) /
          ((a.rows * a.cols : Nat) : Rat) } := by
  have hcond : (a.rows == b.rows && a.cols == b.cols) = true := by
    simp [hr, hc]
  simp [mask_metrics, hcond, cv2_threshold127]

theorem count_zipWith_congr (p q : Nat → Nat → Bool) (h : ∀ x y, p x y = q x y)
    (l1 l2 : List Nat) :
    (List.zipWith p l1 l2).count true = (List.zipWith q l1 l2).count true := by
  have hpq : p = q := funext fun x => funext fun y => h x y
  rw [hpq]

theorem np_and_thr (a b : Img) :
    np_logical_and_sum (cv2_threshold127 a) (cv2_threshold127 b) =
      spec_intersection a b := by
  unfold np_logical_and_sum spec_intersection cv2_threshold127
  simp only [List.zipWith_map]
  exact count_zipWith_congr _ _
    (fun x y => by
      by_cases hx : 127 < x <;> by_cases hy : 127 < y <;>
        simp [spec_foreground, hx, hy]) _ _

theorem np_or_thr (a b : Img) :
    np_logical_or_sum (cv2_threshold127 a) (cv2_threshold127 b) =
      spec_union a b := by
  unfold np_logical_or_sum spec_union cv2_threshold127
  simp only [List.zipWith_map]
  exact count_zipWith_congr _ _
    (fun x y => by
      by_cases hx : 127 < x <;> by_cases hy : 127 < y <;>
        simp [spec_foreground, hx, hy]) _ _

theorem np_eq_thr (a b : Img) :
    np_eq_sum (cv2_threshold127 a) (cv2_threshold127 b) = spec_correct a b := by
  unfold np_eq_sum spec_correct cv2_threshold127
  simp only [List.zipWith_map]
  exact count_zipWith_congr _ _ (fun x y => rfl) _ _

theorem mask_metrics_spec (resize : Img → Nat → Nat → Img) (a b b1 : Img)
    (hb1 : b1 = if a.rows == b.rows && a.cols == b.cols then b
                else resize b a.cols a.rows) :
    mask_metrics resize a b =
      { IoU := if 0 < spec_union a b1 then spec_IoU a b1 else 0,
        Accuracy := spec_accuracy a b1 } := by
  subst hb1
  simp only [mask_metrics]
  rw [np_and_thr, np_or_thr, np_eq_thr]
  rfl

theorem compute_eq_metrics (imread : String → Option Img)
    (resize : Img → Nat → Nat → Img) (p1 p2 : String) (a b : Img)
    (ha : imread p1 = some a) (hb : imread p2 = some b) :
    compute_mask_accuracy imread resize p1 p2 = (mask_metrics resize a b, []) := by
  unfold compute_mask_accuracy
  rw [ha, hb]

theorem shape_cond_true (a b : Img) (hr : a.rows = b.rows) (hc : a.cols = b.cols) :
    (a.rows == b.rows && a.cols == b.cols) = true := by
  simp [hr, hc]

theorem count_black_zip (l1 l2 : List Nat) (h1 : ∀ v ∈ l1, v = 0)
    (h2 : ∀ v ∈ l2, v = 0) :
    (List.zipWith (fun x y => spec_binarize x == spec_binarize y) l1 l2).count true =
      min l1.length l2.length := by
  induction l1 generalizing l2 with
  | nil => simp
  | cons x xs ih =>
      cases l2 with
      | nil => simp
      | cons y ys =>
          have hx : x = 0 := h1 x (List.mem_cons_self _ _)
          have hy : y = 0 := h2 y (List.mem_cons_self _ _)
          subst hx; subst hy
          have hrec := ih ys (fun v hv => h1 v (List.mem_cons_of_mem _ hv))
            (fun v hv => h2 v (List.mem_cons_of_mem _ hv))
          have hhead : (spec_binarize 0 == spec_binarize 0) = true := by decide
          rw [List.zipWith_cons_cons, List.count_cons, hrec]
          simp [hhead, Nat.succ_min_succ]

theorem union_black (l1 l2 : List Nat) (h1 : ∀ v ∈ l1, v = 0)
    (h2 : ∀ v ∈ l2, v = 0) :
    (List.zipWith (fun x y => spec_foreground x || spec_foreground y) l1 l2).count true = 0 := by
  induction l1 generalizing l2 with
  | nil => simp
  | cons x xs ih =>
      cases l2 with
      | nil => simp
      | cons y ys =>
          have hx : x = 0 := h1 x (List.mem_cons_self _ _)
          have hy : y = 0 := h2 y (List.mem_cons_self _ _)
          subst hx; subst hy
          have hrec := ih ys (fun v hv => h1 v (List.mem_cons_of_mem _ hv))
            (fun v hv => h2 v (List.mem_cons_of_mem _ hv))
          have hhead : spec_foreground 0 = false := by decide
          rw [List.zipWith_cons_cons, List.count_cons, hrec]
          simp [hhead]

/-- C1: for every pair of loadable masks, the pairwise metric binarizes both
grids at threshold 127 (values >127 → 255, else 0) and returns IoU equal to
the logical-AND pixel count divided by the logical-OR pixel count of the
binarized grids, and Accuracy equal to the count of pixels where the
binarized reference equals the binarized candidate divided by the reference's
total pixel count.  `b1` is the candidate grid actually compared (the loaded
candidate, resized by the source's resize step when the shapes differ); the
IoU equation is stated for a non-empty union, where the quotient is a real
division (the empty-union fallback is claim C5). -/
theorem metric_matches_spec (imread : String → Option Img)
    (resize : Img → Nat → Nat → Img) (p1 p2 : String) (a b b1 : Img)
    (ha : imread p1 = some a) (hb : imread p2 = some b)
    (hb1 : b1 = if a.rows == b.rows && a.cols == b.cols then b
                else resize b a.cols a.rows) :
    (0 < spec_union a b1 →
      (compute_mask_accuracy imread resize p1 p2).1.IoU = spec_IoU a b1) ∧
    (compute_mask_accuracy imread resize p1 p2).1.Accuracy = spec_accuracy a b1 := by
  rw [compute_eq_metrics imread resize p1 p2 a b ha hb,
    mask_metrics_spec resize a b b1 hb1]
  constructor
  · intro hu
    show (if 0 < spec_union a b1 then spec_IoU a b1 else 0) = spec_IoU a b1
    rw [if_pos hu]
  · rfl

/-- C1 witness: a concrete loadable pair on which the hypotheses of
`metric_matches_spec` hold. -/
theorem metric_matches_spec_witness :
    (fun p => if p = "r" then some (⟨1, 2, [200, 0]⟩ : Img)
              else some (⟨1, 2, [0, 200]⟩ : Img)) "r" = some ⟨1, 2, [200, 0]⟩ ∧
    0 < spec_union ⟨1, 2, [200, 0]⟩ ⟨1, 2, [0, 200]⟩ ∧
    ((compute_mask_accuracy
        (fun p => if p = "r" then some (⟨1, 2, [200, 0]⟩ : Img)
                  else some (⟨1, 2, [0, 200]⟩ : Img))
        (fun i _ _ => i) "r" "t").1.IoU =
      spec_IoU ⟨1, 2, [200, 0]⟩ ⟨1, 2, [0, 200]⟩ ∧
     (compute_mask_accuracy
        (fun p => if p = "r" then some (⟨1, 2, [200, 0]⟩ : Img)
                  else some (⟨1, 2, [0, 200]⟩ : Img))
        (fun i _ _ => i) "r" "t").1.Accuracy =
      spec_accuracy ⟨1, 2, [200, 0]⟩ ⟨1, 2, [0, 200]⟩) := by
  refine ⟨by decide, by decide, ?_, ?_⟩
  · exact (metric_matches_spec _ (fun i _ _ => i) "r" "t"
      ⟨1, 2, [200, 0]⟩ ⟨1, 2, [0, 200]⟩ ⟨1, 2, [0, 200]⟩
      (by decide) (by decide) (by decide)).1 (by decide)
  · exact (metric_matches_spec _ (fun i _ _ => i) "r" "t"
      ⟨1, 2, [200, 0]⟩ ⟨1, 2, [0, 200]⟩ ⟨1, 2, [0, 200]⟩
      (by decide) (by decide) (by decide)).2

/-- C5: for a pair of loaded same-sized grids whose binarized union is empty
the metric returns IoU = 0.0 through the guarded branch (the division is
never executed with a zero denominator), and for two fully-black masks the
union is empty, IoU = 0.0 and Accuracy = 1.0. -/
theorem empty_union_safe (imread : String → Option Img)
    (resize : Img → Nat → Nat → Img) (p1 p2 : String) (a b : Img)
    (ha : imread p1 = some a) (hb : imread p2 = some b)
    (hr : a.rows = b.rows) (hc : a.cols = b.cols) :
    (spec_union a b = 0 →
      (compute_mask_accuracy imread resize p1 p2).1.IoU = 0) ∧
    ((∀ v ∈ a.data, v = 0) → (∀ v ∈ b.data, v = 0) →
      a.data.length = a.rows * a.cols → b.data.length = b.rows * b.cols →
      0 < a.rows * a.cols →
      spec_union a b = 0 ∧
        (compute_mask_accuracy imread resize p1 p2).1.IoU = 0 ∧
        (compute_mask_accuracy imread resize p1 p2).1.Accuracy = 1) := by
  have hb1 : b = if a.rows == b.rows && a.cols == b.cols then b
      else resize b a.cols a.rows := (if_pos (shape_cond_true a b hr hc)).symm
  rw [compute_eq_metrics imread resize p1 p2 a b ha hb,
    mask_metrics_spec resize a b b hb1]
  have hiou : ∀ hu : spec_union a b = 0,
      ({ IoU := if 0 < spec_union a b then spec_IoU a b else 0,
         Accuracy := spec_accuracy a b } : MetricResult).IoU = 0 := by
    intro hu
    show (if 0 < spec_union a b then spec_IoU a b else 0) = 0
    rw [hu]
    simp
  refine ⟨hiou, ?_⟩
  intro hza hzb hla hlb hpos
  have hu : spec_union a b = 0 := union_black a.data b.data hza hzb
  refine ⟨hu, hiou hu, ?_⟩
  show spec_accuracy a b = 1
  unfold spec_accuracy spec_correct
  rw [count_black_zip a.data b.data hza hzb, hla, hlb, hr, hc, Nat.min_self,
    ← hr, ← hc]
  exact div_self (by positivity)

/-- C5 witness: two fully-black 2×2 masks. -/
theorem empty_union_safe_witness :
    spec_union (⟨2, 2, [0, 0, 0, 0]⟩ : Img) ⟨2, 2, [0, 0, 0, 0]⟩ = 0 ∧
    (compute_mask_accuracy (fun _ => some ⟨2, 2, [0, 0, 0, 0]⟩)
      (fun i _ _ => i) "a" "b").1.IoU = 0 ∧
    (compute_mask_accuracy (fun _ => some ⟨2, 2, [0, 0, 0, 0]⟩)
      (fun i _ _ => i) "a" "b").1.Accuracy = 1 :=
  (empty_union_safe (fun _ => some ⟨2, 2, [0, 0, 0, 0]⟩) (fun i _ _ => i)
      "a" "b" ⟨2, 2, [0, 0, 0, 0]⟩ ⟨2, 2, [0, 0, 0, 0]⟩
      rfl rfl rfl rfl).2
    (by decide) (by decide) (by decide) (by decide) (by decide)

/-- C6: when at least one of the two masks fails to load, the pairwise
metric returns the degraded result {IoU: 0.0, Accuracy: 0.0} together with
the diagnostic line, instead of failing. -/
theorem load_failure_degraded (imread : String → Option Img)
    (resize : Img → Nat → Nat → Img) (p1 p2 : String)
    (h : imread p1 = none ∨ imread p2 = none) :
    compute_mask_accuracy imread resize p1 p2 =
      ({ IoU := 0, Accuracy := 0 },
       ["Error: Could not load one of the masks - " ++ p1 ++ " or " ++ p2]) := by
  unfold compute_mask_accuracy
  rcases h with h | h
  · rw [h]
  · cases h1 : imread p1 <;> rw [h]

/-- C6 witness: a concrete failing load. -/
theorem load_failure_degraded_witness :
    ((fun (_ : String) => (none : Option Img)) "a" = none ∨
      (fun (_ : String) => (none : Option Img)) "b" = none) ∧
    compute_mask_accuracy (fun _ => none) (fun i _ _ => i) "a" "b" =
      ({ IoU := 0, Accuracy := 0 },
       ["Error: Could not load one of the masks - " ++ "a" ++ " or " ++ "b"]) :=
  ⟨Or.inl rfl,
   load_failure_degraded (fun _ => none) (fun i _ _ => i) "a" "b" (Or.inl rfl)⟩

theorem spec_intersection_comm (a b : Img) :
    spec_intersection a b = spec_intersection b a := by
  unfold spec_intersection
  rw [List.zipWith_comm]
  exact count_zipWith_congr _ _ (fun x y => Bool.and_comm _ _) _ _

theorem spec_union_comm (a b : Img) : spec_union a b = spec_union b a := by
  unfold spec_union
  rw [List.zipWith_comm]
  exact count_zipWith_congr _ _ (fun x y => Bool.or_comm _ _) _ _

theorem beq_comm_nat (x y : Nat) : (x == y) = (y == x) := by
  by_cases h : x = y
  · subst h; rfl
  · simp [h, Ne.symm h]

theorem spec_correct_comm (a b : Img) : spec_correct a b = spec_correct b a := by
  unfold spec_correct
  rw [List.zipWith_comm]
  exact count_zipWith_congr _ _ (fun x y => beq_comm_nat _ _) _ _

/-- C9: for loaded masks of equal dimensions the pairwise metric is
symmetric: swapping reference and candidate gives the same IoU and the same
Accuracy. -/
theorem metric_symmetric (imread : String → Option Img)
    (resize : Img → Nat → Nat → Img) (p1 p2 : String) (a b : Img)
    (ha : imread p1 = some a) (hb : imread p2 = some b)
    (hr : a.rows = b.rows) (hc : a.cols = b.cols) :
    (compute_mask_accuracy imread resize p1 p2).1 =
      (compute_mask_accuracy imread resize p2 p1).1 := by
  have hb1 : b = if a.rows == b.rows && a.cols == b.cols then b
      else resize b a.cols a.rows := (if_pos (shape_cond_true a b hr hc)).symm
  have ha1 : a = if b.rows == a.rows && b.cols == a.cols then a
      else resize a b.cols b.rows :=
    (if_pos (shape_cond_true b a hr.symm hc.symm)).symm
  rw [compute_eq_metrics imread resize p1 p2 a b ha hb,
    compute_eq_metrics imread resize p2 p1 b a hb ha,
    mask_metrics_spec resize a b b hb1, mask_metrics_spec resize b a a ha1]
  have h1 : spec_union a b = spec_union b a := spec_union_comm a b
  have h2 : spec_intersection a b = spec_intersection b a :=
    spec_intersection_comm a b
  have h3 : spec_correct a b = spec_correct b a := spec_correct_comm a b
  have h4 : a.rows * a.cols = b.rows * b.cols := by rw [hr, hc]
  simp [spec_IoU, spec_accuracy, h1, h2, h3, h4]

/-- C9 witness: a concrete equal-dimension pair. -/
theorem metric_symmetric_witness :
    (fun p => if p = "r" then some (⟨1, 2, [200, 0]⟩ : Img)
              else some (⟨1, 2, [0, 200]⟩ : Img)) "r" = some ⟨1, 2, [200, 0]⟩ ∧
    (compute_mask_accuracy
        (fun p => if p = "r" then some (⟨1, 2, [200, 0]⟩ : Img)
                  else some (⟨1, 2, [0, 200]⟩ : Img)) (fun i _ _ => i) "r" "t").1 =
      (compute_mask_accuracy
        (fun p => if p = "r" then some (⟨1, 2, [200, 0]⟩ : Img)
                  else some (⟨1, 2, [0, 200]⟩ : Img)) (fun i _ _ => i) "t" "r").1 :=
  ⟨by decide,
   metric_symmetric _ (fun i _ _ => i) "r" "t" ⟨1, 2, [200, 0]⟩ ⟨1, 2, [0, 200]⟩
     (by decide) (by decide) rfl rfl⟩

/-- C8: on the concrete 10×10 scenario, an identical candidate yields
IoU = 1.0 and Accuracy = 1.0, and the diagonally shifted candidate yields
intersection 4, union 14, IoU = 4/14. -/
theorem concrete_square_scenario :
    (compute_mask_accuracy squareImread (fun i _ _ => i) "ref" "same").1 =
      { IoU := 1, Accuracy := 1 } ∧
    np_logical_and_sum (cv2_threshold127 (squareMask 0 0))
      (cv2_threshold127 (squareMask 1 1)) = 4 ∧
    np_logical_or_sum (cv2_threshold127 (squareMask 0 0))
      (cv2_threshold127 (squareMask 1 1)) = 14 ∧
    (compute_mask_accuracy squareImread (fun i _ _ => i) "ref" "shift").1.IoU =
      4 / 14 := by
  refine ⟨?_, by decide, by decide, ?_⟩
  · rw [compute_eq_metrics squareImread (fun i _ _ => i) "ref" "same"
      (squareMask 0 0) (squareMask 0 0) (by decide) (by decide)]
    show mask_metrics (fun i _ _ => i) (squareMask 0 0) (squareMask 0 0) =
      { IoU := 1, Accuracy := 1 }
    rw [mask_metrics_eq_shape (fun i _ _ => i) (squareMask 0 0) (squareMask 0 0)
      rfl rfl]
    have h1 : np_logical_and_sum (cv2_threshold127 (squareMask 0 0))
        (cv2_threshold127 (squareMask 0 0)) = 9 := by decide
    have h2 : np_logical_or_sum (cv2_threshold127 (squareMask 0 0))
        (cv2_threshold127 (squareMask 0 0)) = 9 := by decide
    have h3 : np_eq_sum (cv2_threshold127 (squareMask 0 0))
        (cv2_threshold127 (squareMask 0 0)) = 100 := by decide
    rw [h1, h2, h3]
    have htotal : (squareMask 0 0).rows * (squareMask 0 0).cols = 100 := by decide
    rw [htotal]
    simp only [MetricResult.mk.injEq]
    norm_num
  · rw [compute_eq_metrics squareImread (fun i _ _ => i) "ref" "shift"
      (squareMask 0 0) (squareMask 1 1) (by decide) (by decide)]
    show (mask_metrics (fun i _ _ => i) (squareMask 0 0) (squareMask 1 1)).IoU =
      4 / 14
    rw [mask_metrics_eq_shape (fun i _ _ => i) (squareMask 0 0) (squareMask 1 1)
      rfl rfl]
    have h1 : np_logical_and_sum (cv2_threshold127 (squareMask 0 0))
        (cv2_threshold127 (squareMask 1 1)) = 4 := by decide
    have h2 : np_logical_or_sum (cv2_threshold127 (squareMask 0 0))
        (cv2_threshold127 (squareMask 1 1)) = 14 := by decide
    show (if np_logical_or_sum (cv2_threshold127 (squareMask 0 0))
        (cv2_threshold127 (squareMask 1 1)) > 0
      then (np_logical_and_sum (cv2_threshold127 (squareMask 0 0))
          (cv2_threshold127 (squareMask 1 1)) : Rat) /
        (np_logical_or_sum (cv2_threshold127 (squareMask 0 0))
          (cv2_threshold127 (squareMask 1 1)) : Rat)
      else 0) = 4 / 14
    rw [h1, h2]
    norm_num

theorem lookup_update_self (g : List (Nat × Img)) (f : Nat) (c : Img) :
    lookupFrame (updateFrame g f c) f = (lookupFrame g f).map (fun _ => c) := by
  induction g with
  | nil => rfl
  | cons p rest ih =>
      by_cases h : p.1 = f
      · simp [updateFrame, lookupFrame, h]
      · simp [updateFrame, lookupFrame, h, ih]

theorem lookup_update_ne (g : List (Nat × Img)) (f' f : Nat) (c : Img)
    (hne : f' ≠ f) :
    lookupFrame (updateFrame g f' c) f = lookupFrame g f := by
  induction g with
  | nil => rfl
  | cons p rest ih =>
      rw [updateFrame]
      by_cases h : p.1 = f'
      · rw [if_pos h, lookupFrame, lookupFrame, if_neg hne,
          if_neg (fun hpf => hne (h ▸ hpf))]
      · rw [if_neg h, lookupFrame, lookupFrame]
        by_cases h2 : p.1 = f
        · rw [if_pos h2, if_pos h2]
        · rw [if_neg h2, if_neg h2]
          exact ih

theorem update_eq_of_lookup (g : List (Nat × Img)) (f : Nat) (c : Img)
    (h : lookupFrame g f = some c) : updateFrame g f c = g := by
  induction g with
  | nil => simp [lookupFrame] at h
  | cons p rest ih =>
      by_cases hp : p.1 = f
      · rw [lookupFrame] at h
        rw [if_pos hp] at h
        have hc : p.2 = c := by injection h
        rw [updateFrame, if_pos hp, ← hc, ← hp]
      · rw [lookupFrame] at h
        rw [if_neg hp] at h
        rw [updateFrame, if_neg hp, ih h]

theorem lookup_append_none (g g2 : List (Nat × Img)) (f : Nat)
    (h : lookupFrame g f = none) :
    lookupFrame (g ++ g2) f = lookupFrame g2 f := by
  induction g with
  | nil => rfl
  | cons p rest ih =>
      rw [lookupFrame] at h
      by_cases hp : p.1 = f
      · rw [if_pos hp] at h; exact absurd h (by simp)
      · rw [if_neg hp] at h
        rw [List.cons_append, lookupFrame, if_neg hp, ih h]

theorem lookup_append_single_ne (g : List (Nat × Img)) (f' f : Nat) (z : Img)
    (hne : f' ≠ f) :
    lookupFrame (g ++ [(f', z)]) f = lookupFrame g f := by
  induction g with
  | nil => simp [lookupFrame, hne]
  | cons p rest ih =>
      rw [List.cons_append, lookupFrame, lookupFrame]
      by_cases hp : p.1 = f
      · rw [if_pos hp, if_pos hp]
      · rw [if_neg hp, if_neg hp]
        exact ih

theorem lookup_ensure_self (w h : Nat) (g : List (Nat × Img)) (f : Nat) :
    lookupFrame (ensureFrame w h g f) f =
      some ((lookupFrame g f).getD (mkZeroCanvas w h)) := by
  unfold ensureFrame
  cases hg : lookupFrame g f with
  | none => rw [if_neg (by simp [hg]), lookup_append_none g _ f hg,
      lookupFrame, if_pos rfl]; rfl
  | some c => rw [if_pos (by simp [hg]), hg]; rfl

theorem lookup_ensure_ne (w h : Nat) (g : List (Nat × Img)) (f' f : Nat)
    (hne : f' ≠ f) :
    lookupFrame (ensureFrame w h g f') f = lookupFrame g f := by
  unfold ensureFrame
  by_cases hg : (lookupFrame g f').isSome
  · rw [if_pos hg]
  · rw [if_neg hg, lookup_append_single_ne g f' f _ hne]

theorem mem_update (g : List (Nat × Img)) (f : Nat) (c : Img) (p : Nat × Img)
    (h : p ∈ updateFrame g f c) : p ∈ g ∨ p = (f, c) := by
  induction g with
  | nil => simp [updateFrame] at h
  | cons q rest ih =>
      rw [updateFrame] at h
      by_cases hq : q.1 = f
      · rw [if_pos hq] at h
        rcases List.mem_cons.mp h with h | h
        · exact Or.inr h
        · exact Or.inl (List.mem_cons_of_mem _ h)
      · rw [if_neg hq] at h
        rcases List.mem_cons.mp h with h | h
        · exact Or.inl (h ▸ List.mem_cons_self _ _)
        · rcases ih h with h | h
          · exact Or.inl (List.mem_cons_of_mem _ h)
          · exact Or.inr h

theorem mem_ensure (w hgt : Nat) (g : List (Nat × Img)) (f : Nat) (p : Nat × Img)
    (h : p ∈ ensureFrame w hgt g f) : p ∈ g ∨ p = (f, mkZeroCanvas w hgt) := by
  unfold ensureFrame at h
  by_cases hg : (lookupFrame g f).isSome
  · rw [if_pos hg] at h; exact Or.inl h
  · rw [if_neg hg] at h
    rcases List.mem_append.mp h with h | h
    · exact Or.inl h
    · exact Or.inr (List.mem_singleton.mp h)

theorem lookup_mem (g : List (Nat × Img)) (f : Nat) (c : Img)
    (h : lookupFrame g f = some c) : (f, c) ∈ g := by
  induction g with
  | nil => simp [lookupFrame] at h
  | cons p rest ih =>
      rw [lookupFrame] at h
      by_cases hp : p.1 = f
      · rw [if_pos hp] at h
        have hc : p.2 = c := by injection h
        have : p = (f, c) := by
          cases p; simp_all
        exact this ▸ List.mem_cons_self _ _
      · rw [if_neg hp] at h
        exact List.mem_cons_of_mem _ (ih h)

theorem paint_length (region : Nat → Nat → Bool) (color cols : Nat) :
    ∀ (start : Nat) (l : List Nat),
      (paintFrom region color cols start l).length = l.length := by
  intro start l
  induction l generalizing start with
  | nil => rfl
  | cons v rest ih => rw [paintFrom]; simp [ih]

theorem paint_mem (region : Nat → Nat → Bool) (color cols : Nat) :
    ∀ (start : Nat) (l : List Nat) (v : Nat),
      v ∈ paintFrom region color cols start l → v = color ∨ v ∈ l := by
  intro start l
  induction l generalizing start with
  | nil => intro v h; simp [paintFrom] at h
  | cons x rest ih =>
      intro v h
      rw [paintFrom] at h
      rcases List.mem_cons.mp h with h | h
      · by_cases hr : region (start / cols) (start % cols)
        · rw [if_pos hr] at h; exact Or.inl h
        · rw [if_neg hr] at h; exact Or.inr (h ▸ List.mem_cons_self _ _)
      · rcases ih (start + 1) v h with h | h
        · exact Or.inl h
        · exact Or.inr (List.mem_cons_of_mem _ h)

theorem paint_getD_cases (region : Nat → Nat → Bool) (color cols : Nat) :
    ∀ (start : Nat) (l : List Nat) (i : Nat),
      (paintFrom region color cols start l).getD i 0 = l.getD i 0 ∨
      (paintFrom region color cols start l).getD i 0 = color := by
  intro start l
  induction l generalizing start with
  | nil => intro i; left; rfl
  | cons x rest ih =>
      intro i
      rw [paintFrom]
      cases i with
      | zero =>
          by_cases hr : region (start / cols) (start % cols)
          · right; simp [hr]
          · left; simp [hr]
      | succ j =>
          rcases ih (start + 1) j with h | h
          · left; simpa using h
          · right; simpa using h

theorem drawShape_canvas_cases (ops : DrawOps) (s : Shape) (c : Img) :
    (drawShapeOnCanvas ops s c).1 = c ∨
      ∃ region, (drawShapeOnCanvas ops s c).1 = applyRegion region 255 c := by
  simp only [drawShapeOnCanvas]
  split
  · split
    · split
      · exact Or.inr ⟨_, rfl⟩
      · exact Or.inl rfl
    · split
      · split
        · exact Or.inr ⟨_, rfl⟩
        · exact Or.inl rfl
      · split
        · split
          · exact Or.inr ⟨_, rfl⟩
          · exact Or.inl rfl
        · exact Or.inl rfl
  · exact Or.inl rfl

theorem drawShape_getD_cases (ops : DrawOps) (s : Shape) (c : Img) (i : Nat) :
    (drawShapeOnCanvas ops s c).1.data.getD i 0 = c.data.getD i 0 ∨
    (drawShapeOnCanvas ops s c).1.data.getD i 0 = 255 := by
  rcases drawShape_canvas_cases ops s c with h | ⟨region, h⟩
  · rw [h]; exact Or.inl rfl
  · rw [h]; exact paint_getD_cases region 255 c.cols 0 c.data i

theorem drawShape_pix255 (ops : DrawOps) (s : Shape) (c : Img) (h : pix255 c) :
    pix255 (drawShapeOnCanvas ops s c).1 := by
  rcases drawShape_canvas_cases ops s c with hc | ⟨region, hc⟩
  · rw [hc]; exact h
  · rw [hc]
    intro v hv
    rcases paint_mem region 255 c.cols 0 c.data v hv with h1 | h1
    · exact Or.inr h1
    · exact h v h1

theorem drawShape_invalid (ops : DrawOps) (s : Shape) (c : Img)
    (h : ¬(s.points.length % 2 = 0 ∧ 0 < s.points.length)) :
    drawShapeOnCanvas ops s c = (c, [Diag.invalidPoints s.points]) := by
  unfold drawShapeOnCanvas
  rw [if_neg h]

theorem processShape_lookup_ne (ops : DrawOps) (w h : Nat) (st : BuilderState)
    (s : Shape) (f : Nat) (hne : s.frame ≠ f) :
    lookupFrame (processShape ops w h st s).grouped f = lookupFrame st.grouped f := by
  simp only [processShape]
  rw [lookup_update_ne _ _ _ _ hne, lookup_ensure_ne w h _ _ _ hne]

theorem processShape_lookup_self (ops : DrawOps) (w h : Nat) (st : BuilderState)
    (s : Shape) :
    lookupFrame (processShape ops w h st s).grouped s.frame =
      some ((drawShapeOnCanvas ops s
        ((lookupFrame st.grouped s.frame).getD (mkZeroCanvas w h))).1) := by
  simp only [processShape]
  rw [lookup_update_self, lookup_ensure_self]
  simp

theorem processShape_invalid (ops : DrawOps) (w h : Nat) (st : BuilderState)
    (s : Shape) (hv : ¬(s.points.length % 2 = 0 ∧ 0 < s.points.length)) :
    processShape ops w h st s =
      { grouped := ensureFrame w h st.grouped s.frame,
        diags := st.diags ++ [Diag.invalidPoints s.points] } := by
  simp only [processShape]
  rw [drawShape_invalid ops s _ hv]
  congr 1
  exact update_eq_of_lookup _ _ _ (by rw [lookup_ensure_self]; rfl)

theorem processShape_isSome (ops : DrawOps) (w h : Nat) (st : BuilderState)
    (s : Shape) (f : Nat) (hs : (lookupFrame st.grouped f).isSome) :
    (lookupFrame (processShape ops w h st s).grouped f).isSome := by
  by_cases he : s.frame = f
  · subst he; rw [processShape_lookup_self]; rfl
  · rw [processShape_lookup_ne ops w h st s f he]; exact hs

theorem processShape_self_isSome (ops : DrawOps) (w h : Nat) (st : BuilderState)
    (s : Shape) :
    (lookupFrame (processShape ops w h st s).grouped s.frame).isSome := by
  rw [processShape_lookup_self]; rfl

theorem fold_isSome (ops : DrawOps) (w h : Nat) (l : List Shape) :
    ∀ (st : BuilderState) (f : Nat), (lookupFrame st.grouped f).isSome →
      (lookupFrame (l.foldl (processShape ops w h) st).grouped f).isSome := by
  induction l with
  | nil => intro st f hf; exact hf
  | cons s rest ih =>
      intro st f hf
      exact ih _ f (processShape_isSome ops w h st s f hf)

theorem fold_mem_isSome (ops : DrawOps) (w h : Nat) (l : List Shape) :
    ∀ (st : BuilderState) (s : Shape), s ∈ l →
      (lookupFrame (l.foldl (processShape ops w h) st).grouped s.frame).isSome := by
  induction l with
  | nil => intro st s hs; simp at hs
  | cons t rest ih =>
      intro st s hs
      rcases List.mem_cons.mp hs with h | h
      · subst h
        exact fold_isSome ops w h rest _ s.frame (processShape_self_isSome ops w h st s)
      · exact ih _ s h

theorem isSome_mem_keys (g : List (Nat × Img)) (f : Nat)
    (h : (lookupFrame g f).isSome) : ∃ c, (f, c) ∈ g := by
  cases hg : lookupFrame g f with
  | none => rw [hg] at h; simp at h
  | some c => exact ⟨c, lookup_mem g f c hg⟩

/-- C2 counterexample: with configured canvas size (10, 10) the builder
still writes `mask_frame_0_1500x1500.png`, not the
`mask_frame_0_10x10.png` the claim's pattern demands. -/
theorem mask_filename_counterexample :
    (output_mask_files (create_grouped_masks_from_annotations fullOps
        [[⟨0, [0, 0, 2, 0, 0, 2], "polygon"⟩]] (10, 10))).map Prod.fst =
      ["mask_frame_0_1500x1500.png"] ∧
    "mask_frame_0_1500x1500.png" ≠ "mask_frame_0_10x10.png" := by
  exact ⟨by decide, by decide⟩

/-- C2 amended: for every frame index present in the input, the builder
writes that frame's output image under the filename
`mask_frame_<frame>_1500x1500.png` — the resolution tag is the fixed
hardcoded string, regardless of the configured canvas size. -/
theorem mask_filename_fixed_tag (ops : DrawOps) (data : List (List Shape))
    (w h : Nat) (s : Shape) (hs : s ∈ data.flatten) :
    ("mask_frame_" ++ toString s.frame ++ "_1500x1500.png") ∈
      (output_mask_files
        (create_grouped_masks_from_annotations ops data (w, h))).map Prod.fst := by
  have h1 := fold_mem_isSome ops w h data.flatten { grouped := [], diags := [] } s hs
  obtain ⟨c, hc⟩ := isSome_mem_keys _ _ h1
  unfold output_mask_files create_grouped_masks_from_annotations
  rw [List.map_map]
  exact List.mem_map.mpr ⟨(s.frame, c), hc, rfl⟩

/-- C2 amended witness: one concrete frame. -/
theorem mask_filename_fixed_tag_witness :
    (⟨3, [0, 0, 2, 0, 0, 2], "polygon"⟩ : Shape) ∈
      ([[⟨3, [0, 0, 2, 0, 0, 2], "polygon"⟩]] : List (List Shape)).flatten ∧
    ("mask_frame_" ++ toString (⟨3, [0, 0, 2, 0, 0, 2], "polygon"⟩ : Shape).frame ++
        "_1500x1500.png") ∈
      (output_mask_files (create_grouped_masks_from_annotations fullOps
        [[⟨3, [0, 0, 2, 0, 0, 2], "polygon"⟩]] (2, 2))).map Prod.fst :=
  ⟨by decide,
   mask_filename_fixed_tag fullOps [[⟨3, [0, 0, 2, 0, 0, 2], "polygon"⟩]] 2 2
     ⟨3, [0, 0, 2, 0, 0, 2], "polygon"⟩ (by decide)⟩

/-- C3 counterexample: a type-ellipse shape with 5 raw coordinate values
(at least 4, but odd) is rejected by the evenness validation: the canvas is
left unchanged (no ellipse fill happens, although the modelled fill would
change the all-zero canvas) and the generic invalid-points diagnostic is
printed. -/
theorem ellipse_counterexample :
    4 ≤ ([0, 0, 5, 5, 30] : List Int).length ∧
    drawShapeOnCanvas fullOps ⟨0, [0, 0, 5, 5, 30], "ellipse"⟩ (mkZeroCanvas 2 2) =
      (mkZeroCanvas 2 2, [Diag.invalidPoints [0, 0, 5, 5, 30]]) ∧
    applyRegion (fullOps.ellipseRegion (0, 0) (5, 5) 30 0 360 (-1)) 255
      (mkZeroCanvas 2 2) ≠ mkZeroCanvas 2 2 := by
  exact ⟨by decide, by decide, by decide⟩

/-- C3 amended: for every type-ellipse shape whose points list passes the
builder's evenness validation, at least 4 values fill the full ellipse
(start angle 0, end angle 360, thickness -1) with value 255, using the
first two values as center, the next two as axes, and the 5th value as
rotation angle when present (default 0); with fewer than 4 values the shape
is skipped with a diagnostic and the canvas is unchanged. -/
theorem ellipse_draw (ops : DrawOps) (s : Shape) (c : Img)
    (htype : s.type = "ellipse") (heven : s.points.length % 2 = 0) :
    (4 ≤ s.points.length →
      drawShapeOnCanvas ops s c =
        (applyRegion (ops.ellipseRegion (s.points.getD 0 0, s.points.getD 1 0)
            (s.points.getD 2 0, s.points.getD 3 0)
            (if 4 < s.points.length then s.points.getD 4 0 else 0) 0 360 (-1))
          255 c, [])) ∧
    (0 < s.points.length → s.points.length < 4 →
      drawShapeOnCanvas ops s c = (c, [Diag.skipEllipse s.points])) := by
  constructor
  · intro h4
    have hpos : 0 < s.points.length := lt_of_lt_of_le (by norm_num) h4
    simp only [drawShapeOnCanvas]
    rw [htype, if_pos ⟨heven, hpos⟩, if_neg (by decide), if_neg (by decide),
      if_pos rfl, if_pos h4]
  · intro hpos h4
    simp only [drawShapeOnCanvas]
    rw [htype, if_pos ⟨heven, hpos⟩, if_neg (by decide), if_neg (by decide),
      if_pos rfl, if_neg (by omega)]

/-- C3 amended witness: a 6-value ellipse with rotation 30. -/
theorem ellipse_draw_witness :
    ((⟨0, [1, 2, 3, 4, 30, 0], "ellipse"⟩ : Shape).type = "ellipse" ∧
     (⟨0, [1, 2, 3, 4, 30, 0], "ellipse"⟩ : Shape).points.length % 2 = 0 ∧
     4 ≤ (⟨0, [1, 2, 3, 4, 30, 0], "ellipse"⟩ : Shape).points.length) ∧
    drawShapeOnCanvas fullOps ⟨0, [1, 2, 3, 4, 30, 0], "ellipse"⟩
        (mkZeroCanvas 2 2) =
      (applyRegion (fullOps.ellipseRegion (1, 2) (3, 4) 30 0 360 (-1)) 255
        (mkZeroCanvas 2 2), []) :=
  ⟨⟨rfl, by decide, by decide⟩,
   (ellipse_draw fullOps ⟨0, [1, 2, 3, 4, 30, 0], "ellipse"⟩ (mkZeroCanvas 2 2)
     rfl (by decide)).1 (by decide)⟩

theorem mkZero_pix255 (w h : Nat) : pix255 (mkZeroCanvas w h) :=
  fun _ hv => Or.inl (List.eq_of_mem_replicate hv)

theorem ensure_pix255 (w h : Nat) (g : List (Nat × Img)) (f : Nat)
    (hg : ∀ p ∈ g, pix255 p.2) : ∀ p ∈ ensureFrame w h g f, pix255 p.2 := by
  intro p hp
  rcases mem_ensure w h g f p hp with hp | hp
  · exact hg p hp
  · rw [hp]; exact mkZero_pix255 w h

theorem processShape_pix255 (ops : DrawOps) (w h : Nat) (st : BuilderState)
    (s : Shape) (hg : ∀ p ∈ st.grouped, pix255 p.2) :
    ∀ p ∈ (processShape ops w h st s).grouped, pix255 p.2 := by
  intro p hp
  simp only [processShape] at hp
  rcases mem_update _ _ _ _ hp with hp | hp
  · exact ensure_pix255 w h st.grouped s.frame hg p hp
  · have hc : pix255 ((lookupFrame (ensureFrame w h st.grouped s.frame)
        s.frame).getD (mkZeroCanvas w h)) := by
      rw [lookup_ensure_self]
      simp only [Option.getD_some]
      cases hl : lookupFrame st.grouped s.frame with
      | none => simp only [Option.getD_none]; exact mkZero_pix255 w h
      | some cv =>
          simp only [Option.getD_some]
          exact hg (s.frame, cv) (lookup_mem _ _ _ hl)
    rw [hp]
    exact drawShape_pix255 ops s _ hc

theorem fold_pix255 (ops : DrawOps) (w h : Nat) (l : List Shape) :
    ∀ st : BuilderState, (∀ p ∈ st.grouped, pix255 p.2) →
      ∀ p ∈ (l.foldl (processShape ops w h) st).grouped, pix255 p.2 := by
  induction l with
  | nil => intro st hst; exact hst
  | cons s rest ih =>
      intro st hst
      exact ih _ (processShape_pix255 ops w h st s hst)

/-- C10: every canvas produced by a builder run holds only the values 0 and
255, and each drawing step is monotone: a shape's drawing either leaves a
pixel unchanged or sets it to 255, so a pixel already at 255 is never
cleared. -/
theorem canvas_binary_monotone :
    (∀ (ops : DrawOps) (data : List (List Shape)) (w h : Nat),
      ∀ p ∈ (create_grouped_masks_from_annotations ops data (w, h)).grouped,
        ∀ v ∈ p.2.data, v = 0 ∨ v = 255) ∧
    (∀ (ops : DrawOps) (s : Shape) (c : Img) (i : Nat),
      (drawShapeOnCanvas ops s c).1.data.getD i 0 = c.data.getD i 0 ∨
      (drawShapeOnCanvas ops s c).1.data.getD i 0 = 255) := by
  constructor
  · intro ops data w h p hp v hv
    exact fold_pix255 ops w h data.flatten { grouped := [], diags := [] }
      (by simp) p hp v hv
  · exact drawShape_getD_cases

/-- C10 witness: a concrete run and a concrete drawing step. -/
theorem canvas_binary_monotone_witness :
    ((0, (⟨2, 2, [255, 255, 255, 255]⟩ : Img)) ∈
        (create_grouped_masks_from_annotations fullOps
          [[⟨0, [0, 0, 2, 0, 0, 2], "polygon"⟩]] (2, 2)).grouped ∧
      (255 : Nat) ∈ (⟨2, 2, [255, 255, 255, 255]⟩ : Img).data ∧
      ((255 : Nat) = 0 ∨ (255 : Nat) = 255)) ∧
    ((drawShapeOnCanvas fullOps ⟨0, [], "polygon"⟩ ⟨1, 1, [7]⟩).1.data.getD 0 0 =
        (⟨1, 1, [7]⟩ : Img).data.getD 0 0 ∨
      (drawShapeOnCanvas fullOps ⟨0, [], "polygon"⟩ ⟨1, 1, [7]⟩).1.data.getD 0 0 =
        255) :=
  ⟨⟨by decide, by decide,
    canvas_binary_monotone.1 fullOps [[⟨0, [0, 0, 2, 0, 0, 2], "polygon"⟩]] 2 2
      (0, ⟨2, 2, [255, 255, 255, 255]⟩) (by decide) 255 (by decide)⟩,
   canvas_binary_monotone.2 fullOps ⟨0, [], "polygon"⟩ ⟨1, 1, [7]⟩ 0⟩

theorem fold_zero_frame (ops : DrawOps) (w h : Nat) (l : List Shape) (f : Nat) :
    ∀ st : BuilderState,
      (∀ t ∈ l, t.frame = f →
        ¬(t.points.length % 2 = 0 ∧ 0 < t.points.length)) →
      (lookupFrame st.grouped f = none ∨
        lookupFrame st.grouped f = some (mkZeroCanvas w h)) →
      ((lookupFrame (l.foldl (processShape ops w h) st).grouped f = none ∨
        lookupFrame (l.foldl (processShape ops w h) st).grouped f =
          some (mkZeroCanvas w h)) ∧
       (((∃ t ∈ l, t.frame = f) ∨
          lookupFrame st.grouped f = some (mkZeroCanvas w h)) →
        lookupFrame (l.foldl (processShape ops w h) st).grouped f =
          some (mkZeroCanvas w h))) := by
  induction l with
  | nil =>
      intro st hall hR
      refine ⟨hR, ?_⟩
      rintro (⟨t, ht, _⟩ | hz)
      · simp at ht
      · exact hz
  | cons s rest ih =>
      intro st hall hR
      rw [List.foldl_cons]
      by_cases hf : s.frame = f
      · have hsv := hall s (List.mem_cons_self _ _) hf
        have hstep : lookupFrame (processShape ops w h st s).grouped f =
            some (mkZeroCanvas w h) := by
          rw [processShape_invalid ops w h st s hsv]
          show lookupFrame (ensureFrame w h st.grouped s.frame) f = _
          rw [hf, lookup_ensure_self]
          rcases hR with hR | hR <;> rw [hR] <;> rfl
        have hrec := ih (processShape ops w h st s)
          (fun t ht htf => hall t (List.mem_cons_of_mem _ ht) htf)
          (Or.inr hstep)
        exact ⟨hrec.1, fun _ => hrec.2 (Or.inr hstep)⟩
      · have hpres : lookupFrame (processShape ops w h st s).grouped f =
            lookupFrame st.grouped f := processShape_lookup_ne ops w h st s f hf
        have hrec := ih (processShape ops w h st s)
          (fun t ht htf => hall t (List.mem_cons_of_mem _ ht) htf)
          (by rw [hpres]; exact hR)
        refine ⟨hrec.1, ?_⟩
        rintro (⟨t, ht, htf⟩ | hz)
        · rcases List.mem_cons.mp ht with hts | hts
          · exact absurd (hts ▸ htf) hf
          · exact hrec.2 (Or.inl ⟨t, hts, htf⟩)
        · exact hrec.2 (Or.inr (by rw [hpres]; exact hz))

/-- C7: a shape whose points list has odd or zero length is skipped with the
invalid-points diagnostic and leaves its frame's canvas pixels untouched;
the run continues with the remaining shapes (the only effects of the invalid
shape are the lazy creation of its frame's canvas and the diagnostic); and a
frame index that appears in the input only with invalid shapes still yields
the all-zero canvas of the configured size. -/
theorem invalid_shape_skip (ops : DrawOps) (w h : Nat) (s : Shape)
    (hv : ¬(s.points.length % 2 = 0 ∧ 0 < s.points.length)) :
    (∀ c : Img, drawShapeOnCanvas ops s c = (c, [Diag.invalidPoints s.points])) ∧
    (∀ (st : BuilderState) (rest : List Shape),
      (s :: rest).foldl (processShape ops w h) st =
        rest.foldl (processShape ops w h)
          { grouped := ensureFrame w h st.grouped s.frame,
            diags := st.diags ++ [Diag.invalidPoints s.points] }) ∧
    (∀ (data : List (List Shape)) (f : Nat),
      (∃ t ∈ data.flatten, t.frame = f) →
      (∀ t ∈ data.flatten, t.frame = f →
        ¬(t.points.length % 2 = 0 ∧ 0 < t.points.length)) →
      lookupFrame
        (create_grouped_masks_from_annotations ops data (w, h)).grouped f =
        some (mkZeroCanvas w h)) := by
  refine ⟨fun c => drawShape_invalid ops s c hv, ?_, ?_⟩
  · intro st rest
    rw [List.foldl_cons, processShape_invalid ops w h st s hv]
  · intro data f hex hall
    exact (fold_zero_frame ops w h data.flatten f { grouped := [], diags := [] }
      hall (Or.inl rfl)).2 (Or.inl hex)

/-- C7 witness: a 3-value (odd) shape; the same frame also appears only with
invalid shapes in a concrete run. -/
theorem invalid_shape_skip_witness :
    ¬((⟨5, [1, 2, 3], "polygon"⟩ : Shape).points.length % 2 = 0 ∧
       0 < (⟨5, [1, 2, 3], "polygon"⟩ : Shape).points.length) ∧
    drawShapeOnCanvas fullOps ⟨5, [1, 2, 3], "polygon"⟩ (mkZeroCanvas 2 2) =
      (mkZeroCanvas 2 2, [Diag.invalidPoints [1, 2, 3]]) ∧
    lookupFrame
      (create_grouped_masks_from_annotations fullOps
        [[⟨5, [1, 2, 3], "polygon"⟩]] (2, 2)).grouped 5 =
      some (mkZeroCanvas 2 2) :=
  ⟨by decide,
   (invalid_shape_skip fullOps 2 2 ⟨5, [1, 2, 3], "polygon"⟩ (by decide)).1
     (mkZeroCanvas 2 2),
   (invalid_shape_skip fullOps 2 2 ⟨5, [1, 2, 3], "polygon"⟩ (by decide)).2.2
     [[⟨5, [1, 2, 3], "polygon"⟩]] 5
     ⟨⟨5, [1, 2, 3], "polygon"⟩, by decide, rfl⟩ (by decide)⟩

theorem eval_fold_spec (imread : String → Option Img)
    (resize : Img → Nat → Nat → Img) (pathEx : String → Bool)
    (cvat_mask_dir test_mask_dir : String) (l : List String) :
    ∀ st : EvalAcc,
      (l.foldl (eval_step imread resize pathEx cvat_mask_dir test_mask_dir)
          st).results =
        st.results ++ (comparedFiles pathEx test_mask_dir l).map
          (fun f => (f, pairMetric imread resize cvat_mask_dir test_mask_dir f)) ∧
      (l.foldl (eval_step imread resize pathEx cvat_mask_dir test_mask_dir)
          st).total_iou =
        st.total_iou + ((comparedFiles pathEx test_mask_dir l).map
          (fun f => (pairMetric imread resize cvat_mask_dir test_mask_dir f).IoU)).sum ∧
      (l.foldl (eval_step imread resize pathEx cvat_mask_dir test_mask_dir)
          st).total_accuracy =
        st.total_accuracy + ((comparedFiles pathEx test_mask_dir l).map
          (fun f => (pairMetric imread resize cvat_mask_dir test_mask_dir f).Accuracy)).sum ∧
      (l.foldl (eval_step imread resize pathEx cvat_mask_dir test_mask_dir)
          st).count =
        st.count + (comparedFiles pathEx test_mask_dir l).length := by
  induction l with
  | nil => intro st; simp [comparedFiles]
  | cons f l ih =>
      intro st
      rw [List.foldl_cons]
      by_cases hm : matches_mask_pattern f = true
      · by_cases hp : pathEx (os_path_join test_mask_dir (test_mask_filename f)) = true
        · have hstep : eval_step imread resize pathEx cvat_mask_dir test_mask_dir st f =
              { results := st.results ++
                  [(f, pairMetric imread resize cvat_mask_dir test_mask_dir f)],
                total_iou := st.total_iou +
                  (pairMetric imread resize cvat_mask_dir test_mask_dir f).IoU,
                total_accuracy := st.total_accuracy +
                  (pairMetric imread resize cvat_mask_dir test_mask_dir f).Accuracy,
                count := st.count + 1,
                warnings := st.warnings } := by
            simp only [eval_step]
            rw [if_pos hm, if_pos hp]
            rfl
          have hcomp : comparedFiles pathEx test_mask_dir (f :: l) =
              f :: comparedFiles pathEx test_mask_dir l := by
            unfold comparedFiles
            rw [List.filter_cons_of_pos]
            rw [hm, hp]
            rfl
          rw [hstep, hcomp]
          obtain ⟨ih1, ih2, ih3, ih4⟩ := ih
            { results := st.results ++
                [(f, pairMetric imread resize cvat_mask_dir test_mask_dir f)],
              total_iou := st.total_iou +
                (pairMetric imread resize cvat_mask_dir test_mask_dir f).IoU,
              total_accuracy := st.total_accuracy +
                (pairMetric imread resize cvat_mask_dir test_mask_dir f).Accuracy,
              count := st.count + 1,
              warnings := st.warnings }
          refine ⟨?_, ?_, ?_, ?_⟩
          · rw [ih1]; simp [List.append_assoc]
          · rw [ih2]; simp [add_assoc]
          · rw [ih3]; simp [add_assoc]
          · rw [ih4]; simp; omega
        · have hp' : pathEx (os_path_join test_mask_dir (test_mask_filename f)) =
              false := by rw [Bool.not_eq_true] at hp; exact hp
          have hstep : eval_step imread resize pathEx cvat_mask_dir test_mask_dir st f =
              { st with warnings := st.warnings ++
                  ["Warning: Missing test mask for " ++ f ++ " -> Expected: " ++
                    test_mask_filename f] } := by
            simp only [eval_step]
            rw [if_pos hm, if_neg hp]
          have hcomp : comparedFiles pathEx test_mask_dir (f :: l) =
              comparedFiles pathEx test_mask_dir l := by
            unfold comparedFiles
            rw [List.filter_cons_of_neg]
            rw [hm, hp']
            simp
          rw [hstep, hcomp]
          obtain ⟨ih1, ih2, ih3, ih4⟩ := ih
            { st with warnings := st.warnings ++
                ["Warning: Missing test mask for " ++ f ++ " -> Expected: " ++
                  test_mask_filename f] }
          exact ⟨ih1, ih2, ih3, ih4⟩
      · have hstep : eval_step imread resize pathEx cvat_mask_dir test_mask_dir st f =
            st := by
          simp only [eval_step]
          rw [if_neg hm]
        have hcomp : comparedFiles pathEx test_mask_dir (f :: l) =
            comparedFiles pathEx test_mask_dir l := by
          unfold comparedFiles
          rw [List.filter_cons_of_neg]
          rw [Bool.not_eq_true] at hm
          rw [hm]
          simp
        rw [hstep, hcomp]
        exact ih st

/-- C4: the expected candidate filename embeds the reference frame index
plus 1; a reference with a matching name whose candidate file is absent only
adds the warning line (it contributes no result entry, no totals and no
count); and the results list of a batch run is exactly one entry per
successfully compared pair followed by the reserved "Overall" entry holding
the arithmetic means over those pairs (0.0 when no pair was compared). -/
theorem batch_eval_spec (imread : String → Option Img)
    (resize : Img → Nat → Nat → Img) (pathEx : String → Bool)
    (cvat_mask_dir test_mask_dir : String) (listing : List String)
    (fname : String) (n : Nat) (st : EvalAcc)
    (h1 : parseNatChars (frame_number_of fname).data = some n)
    (h2 : matches_mask_pattern fname = true)
    (h3 : pathEx (os_path_join test_mask_dir (test_mask_filename fname)) = false) :
    test_mask_filename fname =
      "mejorada_recortada_0301-" ++ toString (n + 1) ++ "_mascara.png" ∧
    eval_step imread resize pathEx cvat_mask_dir test_mask_dir st fname =
      { st with warnings := st.warnings ++
          ["Warning: Missing test mask for " ++ fname ++ " -> Expected: " ++
            test_mask_filename fname] } ∧
    (evaluate_multiple_masks imread resize pathEx cvat_mask_dir test_mask_dir
        listing).1 =
      (comparedFiles pathEx test_mask_dir (sortStrings listing)).map
          (fun f => (f, pairMetric imread resize cvat_mask_dir test_mask_dir f)) ++
        [("Overall",
          { IoU :=
              if (comparedFiles pathEx test_mask_dir (sortStrings listing)).length = 0
              then 0
              else ((comparedFiles pathEx test_mask_dir (sortStrings listing)).map
                  (fun f =>
                    (pairMetric imread resize cvat_mask_dir test_mask_dir f).IoU)).sum /
                ((comparedFiles pathEx test_mask_dir (sortStrings listing)).length : Rat),
            Accuracy :=
              if (comparedFiles pathEx test_mask_dir (sortStrings listing)).length = 0
              then 0
              else ((comparedFiles pathEx test_mask_dir (sortStrings listing)).map
                  (fun f =>
                    (pairMetric imread resize cvat_mask_dir test_mask_dir f).Accuracy)).sum /
                ((comparedFiles pathEx test_mask_dir (sortStrings listing)).length : Rat) })] := by
  refine ⟨?_, ?_, ?_⟩
  · unfold test_mask_filename
    rw [h1]
    rfl
  · simp only [eval_step]
    rw [if_pos h2, if_neg (by simp [h3])]
  · obtain ⟨e1, e2, e3, e4⟩ := eval_fold_spec imread resize pathEx cvat_mask_dir
      test_mask_dir (sortStrings listing)
      { results := [], total_iou := 0, total_accuracy := 0, count := 0,
        warnings := [] }
    simp only [evaluate_multiple_masks]
    rw [e1, e2, e3, e4]
    simp only [List.nil_append, zero_add, Nat.zero_add]
    by_cases hl : (comparedFiles pathEx test_mask_dir (sortStrings listing)).length = 0
    · rw [hl]
      norm_num
    · have hpos := Nat.pos_of_ne_zero hl
      rw [if_pos hpos, if_pos hpos, if_neg hl, if_neg hl]

/-- C4 witness: the reference filename `mask_frame_3_1500x1500.png` parses to
frame 3 and derives the candidate name with frame index 4. -/
theorem batch_eval_spec_witness :
    parseNatChars (frame_number_of "mask_frame_3_1500x1500.png").data = some 3 ∧
    test_mask_filename "mask_frame_3_1500x1500.png" =
      "mejorada_recortada_0301-" ++ toString (3 + 1) ++ "_mascara.png" :=
  ⟨by decide,
   (batch_eval_spec (fun _ => none) (fun i _ _ => i) (fun _ => false)
     "cvat" "test" ["mask_frame_3_1500x1500.png"] "mask_frame_3_1500x1500.png" 3
     { results := [], total_iou := 0, total_accuracy := 0, count := 0,
       warnings := [] }
     (by decide) (by decide) rfl).1⟩
